import Mathlib

/-!
Verification of the linux-keyutils keyring store backend.

The development shallowly embeds the credential backend:
- strings are lists of characters (`Str`), secrets are lists of bytes;
- the kernel keyring facility (an external trusted primitive library per the
  spec: resolve-keyring, add-or-replace-key, link-key, search, read,
  invalidate) is modelled as an explicit `Kernel` state: a description-indexed
  map of key states, a persistent-link map, an access-denied map, and
  fault-injection fields that let the external primitive calls fail with a
  kernel error, since those calls are fallible syscalls outside this crate;
- the backend's own code (`Cred`, the error translator, the store
  configuration and the description builder) is translated directly from
  `src/cred.rs`, `src/error.rs` and `src/store.rs`.
-/

instance {ε α : Type} [DecidableEq ε] [DecidableEq α] :
    DecidableEq (Except ε α) := fun x y =>
  match x, y with
  | .error a, .error b =>
      if h : a = b then isTrue (by rw [h])
      else isFalse (by intro hh; cases hh; exact h rfl)
  | .error _, .ok _ => isFalse (by intro h; cases h)
  | .ok _, .error _ => isFalse (by intro h; cases h)
  | .ok a, .ok b =>
      if h : a = b then isTrue (by rw [h])
      else isFalse (by intro hh; cases hh; exact h rfl)

/-- Strings are modelled as lists of characters. -/
abbrev Str := List Char

/-- A secret byte. -/
abbrev Byte := Fin 256

/-- A secret: arbitrary binary byte content. -/
abbrev Bytes := List Byte

/-- An opaque keyring handle (`linux_keyutils::KeyRing`); only its identity matters. -/
abbrev KeyRing := Nat

/-- Whether `needle` occurs at the start of `hay` (used to model Rust substring search). -/
def leadsWith : Str → Str → Bool
  | [], _ => true
  | _ :: _, [] => false
  | a :: as, b :: bs => a == b && leadsWith as bs

/-- Rust `str::contains` on the model strings: `hasSub hay needle` is true iff
`needle` occurs as a contiguous substring of `hay`; the empty needle is
contained in every string, as in Rust. -/
def hasSub : Str → Str → Bool
  | [], needle => needle == []
  | a :: rest, needle => leadsWith needle (a :: rest) || hasSub rest needle

/-- The kernel-native error type (`linux_keyutils::KeyError`), restricted to the
variants the error translator in `src/error.rs` names, plus representatives of
the catch-all arm (`QuotaExceeded`, `WriteError`, `OperationNotSupported`,
`Unknown code`). -/
inductive KeyUtilsError where
  | KeyDoesNotExist
  | KeyRevoked
  | KeyExpired
  | AccessDenied
  | InvalidDescription
  | InvalidArguments
  | QuotaExceeded
  | WriteError
  | OperationNotSupported
  | Unknown (code : Int)
deriving DecidableEq, Repr

/-- The internal new type of `src/error.rs` is a transparent wrapper around the
kernel error, so it is identified with it here. -/
abbrev KeyStoreError := KeyUtilsError

/-- The front end's error taxonomy (`keyring_core::Error`), restricted to the
variants this backend produces. `NoStorageAccess` and `PlatformFailure` wrap
the underlying kernel error. -/
inductive KeyRingError where
  | NoEntry
  | Invalid (field reason : String)
  | NoStorageAccess (cause : KeyUtilsError)
  | PlatformFailure (cause : KeyUtilsError)
deriving DecidableEq, Repr

/-- The error translator: `impl From<KeyStoreError> for KeyRingError` in
`src/error.rs` lines 22-43.  Does-not-exist, revoked and expired collapse to
`NoEntry`; access-denied maps to `NoStorageAccess`; the two invalid-input
kernel errors map to `Invalid`; everything else is wrapped in
`PlatformFailure`. -/
def KeyStoreError.toKeyRingError : KeyStoreError → KeyRingError
  | .KeyDoesNotExist => .NoEntry
  | .KeyRevoked => .NoEntry
  | .KeyExpired => .NoEntry
  | .AccessDenied => .NoStorageAccess .AccessDenied
  | .InvalidDescription => .Invalid "description" "rejected by the platform"
  | .InvalidArguments => .Invalid "password" "rejected by the platform"
  | .QuotaExceeded => .PlatformFailure .QuotaExceeded
  | .WriteError => .PlatformFailure .WriteError
  | .OperationNotSupported => .PlatformFailure .OperationNotSupported
  | .Unknown code => .PlatformFailure (.Unknown code)

/-- The per-description state of a kernel key as observed through search:
present-and-valid (holding the secret), revoked, or expired. -/
inductive KeyState where
  | valid (secret : Bytes)
  | revoked
  | expired
deriving DecidableEq, Repr

/-- The kernel keyring facility, modelled from the spec's assumed primitive
interface as a description-indexed state.  `keys` is what a session-keyring
search by description observes; `persistentLinked` records which descriptions
are also linked into the persistent keyring; `denied` marks descriptions whose
keys exist but deny access to the caller.  The `…Err` fields inject failures of
the external primitive calls (each call either takes the nominal path or fails
with the configured kernel error), since those syscalls are fallible in ways
not determined by the key map alone. -/
structure Kernel where
  keys : Str → Option KeyState
  persistentLinked : Str → Bool
  denied : Str → Bool
  addKeyErr : Option KeyUtilsError
  linkSessionErr : Option KeyUtilsError
  linkPersistentErr : Option KeyUtilsError
  readErr : Option KeyUtilsError
  invalidateErr : Option KeyUtilsError

/-- The kernel is nominal when none of the fault-injection fields is active:
every primitive call behaves according to the key map alone. -/
def Kernel.nominal (k : Kernel) : Prop :=
  k.addKeyErr = none ∧ k.linkSessionErr = none ∧ k.linkPersistentErr = none ∧
    k.readErr = none ∧ k.invalidateErr = none

/-- Kernel primitive: search the session keyring by description
(`KeyRing::search`).  Fails with `AccessDenied` when access to the description
is denied, `KeyDoesNotExist` when absent, `KeyRevoked`/`KeyExpired` on an
invalid key; returns a handle (identified with the description) on success. -/
def Kernel.search (k : Kernel) (d : Str) : Except KeyUtilsError Str :=
  if k.denied d then .error .AccessDenied
  else
    match k.keys d with
    | none => .error .KeyDoesNotExist
    | some (.valid _) => .ok d
    | some .revoked => .error .KeyRevoked
    | some .expired => .error .KeyExpired

/-- Kernel primitive: add-or-replace a key under a description in the session
keyring (`KeyRing::add_key`); replaces any previous key with that description
and grants the caller access to the fresh key. -/
def Kernel.addKey (k : Kernel) (d : Str) (s : Bytes) :
    Except KeyUtilsError Str × Kernel :=
  match k.addKeyErr with
  | some e => (.error e, k)
  | none =>
      (.ok d,
       { k with
         keys := fun d' => if d' = d then some (.valid s) else k.keys d'
         denied := fun d' => if d' = d then false else k.denied d' })

/-- Kernel primitive: re-link a found key into the session keyring
(`KeyRing::link_key` on the session keyring); the key is already reachable
there, so the nominal path leaves the state unchanged. -/
def Kernel.linkSession (k : Kernel) (_h : Str) :
    Except KeyUtilsError Unit × Kernel :=
  match k.linkSessionErr with
  | some e => (.error e, k)
  | none => (.ok (), k)

/-- Kernel primitive: link a key into the persistent keyring
(`KeyRing::link_key` on the persistent keyring). -/
def Kernel.linkPersistent (k : Kernel) (h : Str) :
    Except KeyUtilsError Unit × Kernel :=
  match k.linkPersistentErr with
  | some e => (.error e, k)
  | none =>
      (.ok (),
       { k with
         persistentLinked := fun d' => if d' = h then true else k.persistentLinked d' })

/-- Kernel primitive: read the payload of a key (`Key::read_to_vec`). -/
def Kernel.readKey (k : Kernel) (h : Str) : Except KeyUtilsError Bytes :=
  match k.readErr with
  | some e => .error e
  | none =>
      match k.keys h with
      | some (.valid s) => .ok s
      | none => .error .KeyDoesNotExist
      | some .revoked => .error .KeyRevoked
      | some .expired => .error .KeyExpired

/-- Kernel primitive: invalidate a key immediately (`Key::invalidate`), so
future searches fail; the key disappears from both keyrings. -/
def Kernel.invalidate (k : Kernel) (h : Str) :
    Except KeyUtilsError Unit × Kernel :=
  match k.invalidateErr with
  | some e => (.error e, k)
  | none =>
      (.ok (),
       { k with
         keys := fun d' => if d' = h then none else k.keys d'
         persistentLinked := fun d' => if d' = h then false else k.persistentLinked d' })

/-- The credential record of `src/cred.rs`: session keyring handle, optional
persistent keyring handle, key description, and the optional (user, service)
specifier pair retained when the description was derived. -/
structure Cred where
  session : KeyRing
  persistent : Option KeyRing
  description : Str
  specifiers : Option (Str × Str)
deriving DecidableEq, Repr

/-- The three delimiters of the store configuration (`delimiters: [String; 3]`
in `src/store.rs`): prefix, divider, suffix. -/
structure Delimiters where
  pre : Str
  mid : Str
  suf : Str
deriving DecidableEq, Repr

/-- Internal method `Cred::set` (`src/cred.rs` lines 188-197): add the key to
the session keyring, then, when a persistent keyring is bound, link the new
key into it as well. -/
def Cred.set (k : Kernel) (c : Cred) (secret : Bytes) :
    Except KeyUtilsError Unit × Kernel :=
  match k.addKey c.description secret with
  | (.error e, k1) => (.error e, k1)
  | (.ok key, k1) =>
      match c.persistent with
      | some _ => k1.linkPersistent key
      | none => (.ok (), k1)

/-- Internal method `Cred::get` (`src/cred.rs` lines 163-182): search the
session keyring by description, re-link the found key to the session keyring
and, when bound, to the persistent keyring (link-repair), then read the
secret. -/
def Cred.get (k : Kernel) (c : Cred) : Except KeyUtilsError Bytes × Kernel :=
  match k.search c.description with
  | .error e => (.error e, k)
  | .ok key =>
      match k.linkSession key with
      | (.error e, k1) => (.error e, k1)
      | (.ok _, k1) =>
          match (match c.persistent with
                 | some _ => k1.linkPersistent key
                 | none => (.ok (), k1)) with
          | (.error e, k2) => (.error e, k2)
          | (.ok _, k2) => (k2.readKey key, k2)

/-- Internal method `Cred::remove` (`src/cred.rs` lines 202-209): search the
session keyring by description, then invalidate the found key immediately. -/
def Cred.remove (k : Kernel) (c : Cred) : Except KeyUtilsError Unit × Kernel :=
  match k.search c.description with
  | .error e => (.error e, k)
  | .ok key => k.invalidate key

/-- `Cred::set_secret` (`src/cred.rs` lines 39-48): reject an empty secret with
`Invalid("secret", "cannot be empty")` before touching the kernel; otherwise
run `Cred.set` and translate any kernel error. -/
def Cred.setSecret (k : Kernel) (c : Cred) (secret : Bytes) :
    Except KeyRingError Unit × Kernel :=
  if secret = [] then
    (.error (.Invalid "secret" "cannot be empty"), k)
  else
    match Cred.set k c secret with
    | (.error e, k1) => (.error (KeyStoreError.toKeyRingError e), k1)
    | (.ok _, k1) => (.ok (), k1)

/-- `Cred::get_secret` (`src/cred.rs` lines 53-56): run `Cred.get` and
translate any kernel error. -/
def Cred.getSecret (k : Kernel) (c : Cred) :
    Except KeyRingError Bytes × Kernel :=
  match Cred.get k c with
  | (.error e, k1) => (.error (KeyStoreError.toKeyRingError e), k1)
  | (.ok v, k1) => (.ok v, k1)

/-- `Cred::delete_credential` (`src/cred.rs` lines 69-72): run `Cred.remove`
and translate any kernel error. -/
def Cred.deleteCredential (k : Kernel) (c : Cred) :
    Except KeyRingError Unit × Kernel :=
  match Cred.remove k c with
  | (.error e, k1) => (.error (KeyStoreError.toKeyRingError e), k1)
  | (.ok _, k1) => (.ok (), k1)

/-- `Cred::get_credential` (`src/cred.rs` lines 77-83): search the session
keyring by description, translating any kernel error; on success return
`Ok(None)` — the secret is never yielded through this path. -/
def Cred.getCredential (k : Kernel) (c : Cred) :
    Except KeyRingError (Option Unit) :=
  match k.search c.description with
  | .error e => .error (KeyStoreError.toKeyRingError e)
  | .ok _ => .ok none

/-- The pure description-building half of `Cred::build_from_specifiers`
(`src/cred.rs` lines 119-136): an explicit target is taken verbatim with no
specifiers; otherwise, after the no-divider-in-service check, the description
is `prefix + user + divider + service + suffix` with specifiers
`(user, service)`. -/
def Cred.descriptionOf (target : Option Str) (delims : Delimiters)
    (serviceNoDividers : Bool) (service user : Str) :
    Except KeyRingError (Str × Option (Str × Str)) :=
  match target with
  | some value => .ok (value, none)
  | none =>
      if serviceNoDividers && hasSub service delims.mid then
        .error (.Invalid "service" "cannot contain delimiter")
      else
        .ok (delims.pre ++ user ++ delims.mid ++ service ++ delims.suf,
             some (user, service))

/-- `Cred::build_from_specifiers` (`src/cred.rs` lines 111-157): build the
description, reject an empty description, resolve the session keyring
(mandatory — failure becomes `NoStorageAccess`), best-effort resolve the
persistent keyring (`.ok()` degrades failure to `none`).  The outcomes of the
two external keyring resolutions are passed in as `sessionRes` and
`persistentRes`. -/
def Cred.buildFromSpecifiers (target : Option Str) (delims : Delimiters)
    (serviceNoDividers : Bool) (service user : Str)
    (sessionRes persistentRes : Except KeyUtilsError KeyRing) :
    Except KeyRingError Cred :=
  match Cred.descriptionOf target delims serviceNoDividers service user with
  | .error e => .error e
  | .ok (description, specifiers) =>
      if description = [] then
        .error (.Invalid "description" "cannot be empty")
      else
        match sessionRes with
        | .error e => .error (.NoStorageAccess e)
        | .ok session =>
            .ok { session := session, persistent := persistentRes.toOption,
                  description := description, specifiers := specifiers }

/-- The store configuration of `src/store.rs` (the wall-clock-derived `id`
string is diagnostic only and omitted). -/
structure Store where
  delimiters : Delimiters
  serviceNoDivider : Bool
deriving DecidableEq, Repr

/-- `Store::new_with_configuration` (`src/store.rs` lines 38-67), after the
attribute parsing has extracted the four recognized optional config values:
`prefix` defaults to `"keyring:"`, `divider` to `"@"`, `suffix` to `""`, and
`service_no_divider` holds exactly when the configured value equals
`"true"` (default `"false"`). -/
def Store.newWithConfiguration (p d s snd : Option Str) : Store :=
  { delimiters :=
      { pre := p.getD "keyring:".data
        mid := d.getD "@".data
        suf := s.getD "".data }
    serviceNoDivider := (snd.getD "false".data) == "true".data }

/-- A kernel state with no keys, no denied descriptions, and no injected
faults: the nominal empty keyring. -/
def kernelEmpty : Kernel :=
  { keys := fun _ => none
    persistentLinked := fun _ => false
    denied := fun _ => false
    addKeyErr := none
    linkSessionErr := none
    linkPersistentErr := none
    readErr := none
    invalidateErr := none }

/-- A kernel state denying access to the description `"a"`. -/
def kernelDenied : Kernel :=
  { kernelEmpty with denied := fun d => d == "a".data }

/-- A kernel state holding a valid key `"a" ↦ [1]` with no injected faults. -/
def kernelWithA : Kernel :=
  { kernelEmpty with
    keys := fun d => if d = "a".data then some (.valid [1]) else none }

/-- A kernel state where linking into the persistent keyring fails with
`QuotaExceeded` while every other primitive is nominal. -/
def kernelLinkFail : Kernel :=
  { kernelEmpty with linkPersistentErr := some .QuotaExceeded }

/-- A credential for description `"a"` with no persistent keyring bound. -/
def credA : Cred :=
  { session := 0, persistent := none, description := "a".data,
    specifiers := none }

/-- A credential for description `"a"` with a persistent keyring bound. -/
def credP : Cred :=
  { session := 0, persistent := some 1, description := "a".data,
    specifiers := none }

/-- The delimiter configuration prefix `""`, divider `"aa"`, suffix `""`. -/
def delimsAA : Delimiters := ⟨[], ['a', 'a'], []⟩

/-- The record built from the explicit target `"tgt"`. -/
def credTgt : Cred :=
  { session := 0, persistent := none, description := "tgt".data,
    specifiers := none }

/-- The record derived from user `"usr"` and service `"svc"` under the default
delimiters. -/
def credUsrSvc : Cred :=
  { session := 0, persistent := some 1,
    description := "keyring:usr@svc".data,
    specifiers := some ("usr".data, "svc".data) }

example : hasSub "abc".data "bc".data = true := by decide
example : hasSub "abc".data "".data = true := by decide
example : hasSub "abc".data "ac".data = false := by decide
example :
    Cred.descriptionOf none ⟨"keyring:".data, "@".data, []⟩ true
      "svc".data "usr".data
      = .ok ("keyring:usr@svc".data, some ("usr".data, "svc".data)) := by decide

/-- C4: for every credential record and every kernel state, `set_secret` with
the empty byte-string fails with `Invalid("secret", "cannot be empty")` and
returns the kernel state literally unchanged: no key is added, replaced or
linked. -/
theorem setSecret_empty_invalid_no_mutation (k : Kernel) (c : Cred) :
    Cred.setSecret k c [] =
      (.error (.Invalid "secret" "cannot be empty"), k) := rfl

/-- C1: on a nominal kernel, for every credential record and every non-empty
secret S, `set_secret S` succeeds and a subsequent `get_secret` on the
resulting kernel state returns exactly S, for arbitrary binary byte
content. -/
theorem setSecret_then_getSecret_roundtrip (k : Kernel) (c : Cred) (S : Bytes)
    (hS : S ≠ []) (hnom : k.nominal) :
    (Cred.setSecret k c S).1 = .ok () ∧
    (Cred.getSecret (Cred.setSecret k c S).2 c).1 = .ok S := by
  obtain ⟨ha, hls, hlp, hr, _⟩ := hnom
  cases hp : c.persistent <;>
    simp [Cred.setSecret, hS, Cred.set, Kernel.addKey, ha, hp,
      Kernel.linkPersistent, hlp, Cred.getSecret, Cred.get, Kernel.search,
      Kernel.linkSession, hls, Kernel.readKey, hr]

/-- Witness for C1 at the empty kernel, a record with a bound persistent
keyring, and the binary secret [0, 255, 10]. -/
theorem setSecret_then_getSecret_roundtrip_witness :
    (Cred.setSecret kernelEmpty credP [0, 255, 10]).1 = .ok () ∧
    (Cred.getSecret (Cred.setSecret kernelEmpty credP [0, 255, 10]).2
        credP).1 = .ok [0, 255, 10] :=
  setSecret_then_getSecret_roundtrip kernelEmpty credP [0, 255, 10]
    (by decide) ⟨rfl, rfl, rfl, rfl, rfl⟩

/-- C2 counterexample: on a kernel state denying access to the record's
description, the lookup underlying `get_secret` and `delete_credential` fails
for the access-denied cause, yet the surfaced error is
`NoStorageAccess(AccessDenied)`, not `NoEntry` — so the four lookup-failure
causes are not uniformly reported as `NoEntry`. -/
theorem accessDenied_surfaces_noStorageAccess :
    Kernel.search kernelDenied credA.description = .error .AccessDenied ∧
    (Cred.getSecret kernelDenied credA).1 =
      .error (.NoStorageAccess .AccessDenied) ∧
    (Cred.deleteCredential kernelDenied credA).1 =
      .error (.NoStorageAccess .AccessDenied) ∧
    (KeyRingError.NoStorageAccess .AccessDenied ≠ KeyRingError.NoEntry) := by
  decide

/-- C2 amended: when the kernel lookup underlying `get_secret` or
`delete_credential` fails, the surfaced error is the translation of the kernel
cause, which is `NoEntry` for key-does-not-exist, key-revoked and key-expired,
but `NoStorageAccess` for access-denied. -/
theorem lookup_failure_translation (k : Kernel) (c : Cred) (e : KeyUtilsError)
    (h : Kernel.search k c.description = .error e) :
    (Cred.getSecret k c).1 = .error (KeyStoreError.toKeyRingError e) ∧
    (Cred.deleteCredential k c).1 = .error (KeyStoreError.toKeyRingError e) ∧
    KeyStoreError.toKeyRingError .KeyDoesNotExist = .NoEntry ∧
    KeyStoreError.toKeyRingError .KeyRevoked = .NoEntry ∧
    KeyStoreError.toKeyRingError .KeyExpired = .NoEntry ∧
    KeyStoreError.toKeyRingError .AccessDenied =
      .NoStorageAccess .AccessDenied := by
  refine ⟨?_, ?_, rfl, rfl, rfl, rfl⟩ <;>
    simp [Cred.getSecret, Cred.get, Cred.deleteCredential, Cred.remove, h]

/-- Witness for the amended C2 at the empty kernel, where the search fails
with key-does-not-exist. -/
theorem lookup_failure_translation_witness :
    (Cred.getSecret kernelEmpty credA).1 =
      .error (KeyStoreError.toKeyRingError .KeyDoesNotExist) ∧
    (Cred.deleteCredential kernelEmpty credA).1 =
      .error (KeyStoreError.toKeyRingError .KeyDoesNotExist) ∧
    KeyStoreError.toKeyRingError .KeyDoesNotExist = .NoEntry ∧
    KeyStoreError.toKeyRingError .KeyRevoked = .NoEntry ∧
    KeyStoreError.toKeyRingError .KeyExpired = .NoEntry ∧
    KeyStoreError.toKeyRingError .AccessDenied =
      .NoStorageAccess .AccessDenied :=
  lookup_failure_translation kernelEmpty credA .KeyDoesNotExist (by decide)

/-- C9: when a persistent keyring is bound and adding the key to the session
keyring succeeds but the subsequent link into the persistent keyring fails,
`set_secret` returns an error even though the session keyring already holds
the new secret under the record's description: the error does not imply the
state is unchanged. -/
theorem setSecret_not_atomic (k : Kernel) (c : Cred) (S : Bytes) (r : KeyRing)
    (e : KeyUtilsError) (hp : c.persistent = some r) (hS : S ≠ [])
    (ha : k.addKeyErr = none) (hl : k.linkPersistentErr = some e) :
    (Cred.setSecret k c S).1 = .error (KeyStoreError.toKeyRingError e) ∧
    (Cred.setSecret k c S).2.keys c.description = some (.valid S) := by
  simp [Cred.setSecret, hS, Cred.set, Kernel.addKey, ha, hp,
    Kernel.linkPersistent, hl]

/-- Witness for C9 at a kernel whose persistent-link primitive fails with
`QuotaExceeded` and the secret [7]. -/
theorem setSecret_not_atomic_witness :
    (Cred.setSecret kernelLinkFail credP [7]).1 =
      .error (KeyStoreError.toKeyRingError .QuotaExceeded) ∧
    (Cred.setSecret kernelLinkFail credP [7]).2.keys credP.description =
      some (.valid [7]) :=
  setSecret_not_atomic kernelLinkFail credP [7] 1 .QuotaExceeded rfl
    (by decide) rfl rfl

/-- A successful search by description means access is granted, a valid key
holds some secret under the description, and the returned handle is the
description itself. -/
theorem search_ok_elim (k : Kernel) (d key : Str)
    (h : Kernel.search k d = .ok key) :
    key = d ∧ k.denied d = false ∧ ∃ s, k.keys d = some (.valid s) := by
  unfold Kernel.search at h
  by_cases hd : k.denied d
  · simp [hd] at h
  · rw [Bool.not_eq_true] at hd
    cases hkc : k.keys d with
    | none => rw [hkc] at h; simp [hd] at h
    | some st =>
      cases st with
      | valid s =>
        rw [hkc] at h
        simp [hd] at h
        exact ⟨h.symm, hd, s, rfl⟩
      | revoked => rw [hkc] at h; simp [hd] at h
      | expired => rw [hkc] at h; simp [hd] at h

/-- C6: on a kernel state holding no key under the record's accessible
description (never set, or already deleted), `get_secret` and
`delete_credential` both fail with `NoEntry`; and after a successful
`delete_credential`, a subsequent `get_secret` fails with `NoEntry` and a
second `delete_credential` fails with `NoEntry`. -/
theorem absent_key_no_entry (k : Kernel) (c : Cred) :
    (k.keys c.description = none → k.denied c.description = false →
      (Cred.getSecret k c).1 = .error .NoEntry ∧
      (Cred.deleteCredential k c).1 = .error .NoEntry) ∧
    (∀ k', Cred.deleteCredential k c = (.ok (), k') →
      (Cred.getSecret k' c).1 = .error .NoEntry ∧
      (Cred.deleteCredential k' c).1 = .error .NoEntry) := by
  constructor
  · intro h1 h2
    constructor <;>
      simp [Cred.getSecret, Cred.get, Cred.deleteCredential, Cred.remove,
        Kernel.search, h1, h2, KeyStoreError.toKeyRingError]
  · intro k' hdel
    unfold Cred.deleteCredential Cred.remove at hdel
    cases hs : Kernel.search k c.description with
    | error e => rw [hs] at hdel; simp at hdel
    | ok key =>
      obtain ⟨hkd, hden, s, hks⟩ := search_ok_elim k c.description key hs
      subst hkd
      rw [hs] at hdel
      unfold Kernel.invalidate at hdel
      cases hi : k.invalidateErr with
      | some e => rw [hi] at hdel; simp at hdel
      | none =>
        rw [hi] at hdel
        simp at hdel
        constructor <;>
          simp [← hdel, Cred.getSecret, Cred.get, Cred.deleteCredential,
            Cred.remove, Kernel.search, hden, KeyStoreError.toKeyRingError]

/-- Witness for C6: at the empty kernel both operations fail with `NoEntry`;
after the successful delete of the key `"a"` in `kernelWithA`, get and a
second delete both fail with `NoEntry`. -/
theorem absent_key_no_entry_witness :
    ((Cred.getSecret kernelEmpty credA).1 = .error .NoEntry ∧
      (Cred.deleteCredential kernelEmpty credA).1 = .error .NoEntry) ∧
    ((Cred.getSecret (Cred.deleteCredential kernelWithA credA).2 credA).1 =
        .error .NoEntry ∧
      (Cred.deleteCredential (Cred.deleteCredential kernelWithA credA).2
          credA).1 = .error .NoEntry) :=
  ⟨(absent_key_no_entry kernelEmpty credA).1 rfl rfl,
   (absent_key_no_entry kernelWithA credA).2
     (Cred.deleteCredential kernelWithA credA).2 rfl⟩

/-- C8 counterexample: on a kernel state denying access to the record's
description, no valid key is found (the search fails), yet `get_credential`
surfaces `NoStorageAccess(AccessDenied)`, not `NoEntry`. -/
theorem getCredential_access_denied :
    Kernel.search kernelDenied credA.description = .error .AccessDenied ∧
    Cred.getCredential kernelDenied credA =
      .error (.NoStorageAccess .AccessDenied) ∧
    (KeyRingError.NoStorageAccess .AccessDenied ≠ KeyRingError.NoEntry) := by
  decide

/-- C8 amended: `get_credential` succeeds exactly when a valid key is found by
description in the session keyring, and then yields `none` (never the secret);
on lookup failure it surfaces the translated kernel cause — `NoEntry` for
does-not-exist, revoked and expired, `NoStorageAccess` for access-denied. -/
theorem getCredential_iff_search (k : Kernel) (c : Cred) :
    ((∃ h, Kernel.search k c.description = .ok h) ↔
      Cred.getCredential k c = .ok none) ∧
    (∀ r, Cred.getCredential k c = .ok r → r = none) ∧
    (∀ e, Kernel.search k c.description = .error e →
      Cred.getCredential k c = .error (KeyStoreError.toKeyRingError e)) ∧
    KeyStoreError.toKeyRingError .KeyDoesNotExist = .NoEntry ∧
    KeyStoreError.toKeyRingError .KeyRevoked = .NoEntry ∧
    KeyStoreError.toKeyRingError .KeyExpired = .NoEntry ∧
    KeyStoreError.toKeyRingError .AccessDenied =
      .NoStorageAccess .AccessDenied := by
  refine ⟨⟨?_, ?_⟩, ?_, ?_, rfl, rfl, rfl, rfl⟩
  · rintro ⟨h, hs⟩
    simp [Cred.getCredential, hs]
  · intro hg
    cases hs : Kernel.search k c.description with
    | error e => simp [Cred.getCredential, hs] at hg
    | ok key => exact ⟨key, rfl⟩
  · intro r hg
    cases hs : Kernel.search k c.description with
    | error e => simp [Cred.getCredential, hs] at hg
    | ok key =>
      simp [Cred.getCredential, hs] at hg
      exact hg.symm
  · intro e hs
    simp [Cred.getCredential, hs]

/-- Witness for the amended C8: success with `none` on the kernel holding key
`"a"`, and the translated does-not-exist failure on the empty kernel. -/
theorem getCredential_iff_search_witness :
    Cred.getCredential kernelWithA credA = .ok none ∧
    Cred.getCredential kernelEmpty credA =
      .error (KeyStoreError.toKeyRingError .KeyDoesNotExist) :=
  ⟨(getCredential_iff_search kernelWithA credA).1.mp
      ⟨credA.description, by decide⟩,
   (getCredential_iff_search kernelEmpty credA).2.2.1 .KeyDoesNotExist
      (by decide)⟩

/-- C5: the description builder satisfies the full contract: a non-empty
explicit target becomes the description verbatim with no specifiers; an
explicit empty-string target fails with an `Invalid` validation error; with no
target a successful build derives `prefix + user + divider + service + suffix`
and retains the `(user, service)` specifiers; and every successful build has a
non-empty description. -/
theorem build_description_contract (target : Option Str) (delims : Delimiters)
    (snd : Bool) (service user : Str)
    (sessionRes persistentRes : Except KeyUtilsError KeyRing) :
    (∀ v c, target = some v → v ≠ [] →
      Cred.buildFromSpecifiers target delims snd service user sessionRes
          persistentRes = .ok c →
      c.description = v ∧ c.specifiers = none) ∧
    (target = some [] →
      Cred.buildFromSpecifiers target delims snd service user sessionRes
          persistentRes = .error (.Invalid "description" "cannot be empty")) ∧
    (∀ c, target = none →
      Cred.buildFromSpecifiers target delims snd service user sessionRes
          persistentRes = .ok c →
      c.description =
        delims.pre ++ user ++ delims.mid ++ service ++ delims.suf ∧
      c.specifiers = some (user, service)) ∧
    (∀ c, Cred.buildFromSpecifiers target delims snd service user sessionRes
        persistentRes = .ok c → c.description ≠ []) := by
  refine ⟨?_, ?_, ?_, ?_⟩
  · intro v c ht hv hb
    subst ht
    cases sessionRes with
    | error e => simp [Cred.buildFromSpecifiers, Cred.descriptionOf, hv] at hb
    | ok r =>
      simp [Cred.buildFromSpecifiers, Cred.descriptionOf, hv] at hb
      rw [← hb]
      exact ⟨rfl, rfl⟩
  · intro ht
    subst ht
    simp [Cred.buildFromSpecifiers, Cred.descriptionOf]
  · intro c ht hb
    subst ht
    by_cases hsub : (snd && hasSub service delims.mid) = true
    · simp [Cred.buildFromSpecifiers, Cred.descriptionOf, hsub] at hb
    · rw [Bool.not_eq_true] at hsub
      simp [Cred.buildFromSpecifiers, Cred.descriptionOf, hsub] at hb
      split at hb
      · simp at hb
      · cases sessionRes with
        | error e => simp at hb
        | ok r =>
          simp at hb
          rw [← hb]
          exact ⟨by simp [List.append_assoc], rfl⟩
  · intro c hb
    unfold Cred.buildFromSpecifiers at hb
    cases hdo : Cred.descriptionOf target delims snd service user with
    | error e => rw [hdo] at hb; simp at hb
    | ok p =>
      rw [hdo] at hb
      obtain ⟨d, sp⟩ := p
      by_cases hd : d = []
      · simp [hd] at hb
      · cases sessionRes with
        | error e => simp [hd] at hb
        | ok r =>
          simp [hd] at hb
          rw [← hb]
          exact hd

/-- Witness for C5 covering all four conjuncts at concrete inputs. -/
theorem build_description_contract_witness :
    (credTgt.description = "tgt".data ∧ credTgt.specifiers = none) ∧
    Cred.buildFromSpecifiers (some []) ⟨"keyring:".data, "@".data, []⟩ false
        "svc".data "usr".data (.ok 0) (.ok 1) =
      .error (.Invalid "description" "cannot be empty") ∧
    (credUsrSvc.description =
        "keyring:".data ++ "usr".data ++ "@".data ++ "svc".data ++ [] ∧
      credUsrSvc.specifiers = some ("usr".data, "svc".data)) ∧
    credTgt.description ≠ [] := by
  have h := build_description_contract (some "tgt".data)
    ⟨"keyring:".data, "@".data, []⟩ false "svc".data "usr".data (.ok 0)
    (.error .OperationNotSupported)
  have h2 := build_description_contract (some ([] : Str))
    ⟨"keyring:".data, "@".data, []⟩ false "svc".data "usr".data (.ok 0)
    (.ok 1)
  have h3 := build_description_contract none
    ⟨"keyring:".data, "@".data, []⟩ false "svc".data "usr".data (.ok 0)
    (.ok 1)
  exact ⟨h.1 "tgt".data credTgt rfl (by decide) (by decide),
         h2.2.1 rfl,
         h3.2.2.1 credUsrSvc rfl (by decide),
         h.2.2.2 credTgt (by decide)⟩

/-- C7: once the description validates, a failed session-keyring resolution
makes construction fail with `NoStorageAccess` wrapping the kernel cause, for
any persistent-keyring outcome; whereas a failed persistent-keyring resolution
never fails construction — the record is returned with `persistent = none`. -/
theorem build_session_mandatory_persistent_optional (target : Option Str)
    (delims : Delimiters) (snd : Bool) (service user : Str) (d : Str)
    (sp : Option (Str × Str))
    (hdo : Cred.descriptionOf target delims snd service user = .ok (d, sp))
    (hd : d ≠ []) :
    (∀ e persistentRes,
      Cred.buildFromSpecifiers target delims snd service user (.error e)
          persistentRes = .error (.NoStorageAccess e)) ∧
    (∀ r pe,
      Cred.buildFromSpecifiers target delims snd service user (.ok r)
          (.error pe) =
        .ok { session := r, persistent := none, description := d,
              specifiers := sp }) := by
  constructor
  · intro e pRes
    simp [Cred.buildFromSpecifiers, hdo, hd]
  · intro r pe
    simp [Cred.buildFromSpecifiers, hdo, hd, Except.toOption]

/-- Witness for C7 at the default delimiter configuration. -/
theorem build_session_mandatory_persistent_optional_witness :
    Cred.buildFromSpecifiers none ⟨"keyring:".data, "@".data, []⟩ false
        "svc".data "usr".data (.error .AccessDenied) (.ok 1) =
      .error (.NoStorageAccess .AccessDenied) ∧
    Cred.buildFromSpecifiers none ⟨"keyring:".data, "@".data, []⟩ false
        "svc".data "usr".data (.ok 0) (.error .OperationNotSupported) =
      .ok { session := 0, persistent := none,
            description := "keyring:usr@svc".data,
            specifiers := some ("usr".data, "svc".data) } := by
  have h := build_session_mandatory_persistent_optional none
    ⟨"keyring:".data, "@".data, []⟩ false "svc".data "usr".data
    "keyring:usr@svc".data (some ("usr".data, "svc".data)) (by decide)
    (by decide)
  exact ⟨h.1 .AccessDenied (.ok 1), h.2 0 .OperationNotSupported⟩

/-- The empty needle is a substring of every string, as for Rust
`str::contains`. -/
theorem hasSub_nil (s : Str) : hasSub s [] = true := by
  cases s with
  | nil => rfl
  | cons a rest => simp [hasSub, leadsWith]

/-- C10: a store configured with `divider = ""` and
`service_no_divider = "true"` rejects every build without an explicit target
with `Invalid` (every service contains the empty substring), while a build
with an explicit non-empty target still succeeds under the same
configuration. -/
theorem empty_divider_rejects_derived_builds (p s service user : Str)
    (sess pers : Except KeyUtilsError KeyRing) :
    (Store.newWithConfiguration (some p) (some []) (some s)
        (some "true".data)).serviceNoDivider = true ∧
    (Store.newWithConfiguration (some p) (some []) (some s)
        (some "true".data)).delimiters.mid = [] ∧
    Cred.buildFromSpecifiers none
        (Store.newWithConfiguration (some p) (some []) (some s)
            (some "true".data)).delimiters
        (Store.newWithConfiguration (some p) (some []) (some s)
            (some "true".data)).serviceNoDivider
        service user sess pers =
      .error (.Invalid "service" "cannot contain delimiter") ∧
    (∀ t r, t ≠ [] →
      Cred.buildFromSpecifiers (some t)
          (Store.newWithConfiguration (some p) (some []) (some s)
              (some "true".data)).delimiters
          (Store.newWithConfiguration (some p) (some []) (some s)
              (some "true".data)).serviceNoDivider
          service user (.ok r) pers =
        .ok { session := r, persistent := pers.toOption, description := t,
              specifiers := none }) := by
  refine ⟨rfl, rfl, ?_, ?_⟩
  · simp [Cred.buildFromSpecifiers, Cred.descriptionOf,
      Store.newWithConfiguration, hasSub_nil]
  · intro t r ht
    simp [Cred.buildFromSpecifiers, Cred.descriptionOf,
      Store.newWithConfiguration, ht, Except.toOption]

/-- Witness for C10 at concrete strings and target `"tgt"`. -/
theorem empty_divider_rejects_derived_builds_witness :
    Cred.buildFromSpecifiers none
        (Store.newWithConfiguration (some "p".data) (some []) (some "s".data)
            (some "true".data)).delimiters
        (Store.newWithConfiguration (some "p".data) (some []) (some "s".data)
            (some "true".data)).serviceNoDivider
        "svc".data "usr".data (.ok 0) (.ok 1) =
      .error (.Invalid "service" "cannot contain delimiter") ∧
    Cred.buildFromSpecifiers (some "tgt".data)
        (Store.newWithConfiguration (some "p".data) (some []) (some "s".data)
            (some "true".data)).delimiters
        (Store.newWithConfiguration (some "p".data) (some []) (some "s".data)
            (some "true".data)).serviceNoDivider
        "svc".data "usr".data (.ok 0) (.ok 1) =
      .ok { session := 0, persistent := some 1, description := "tgt".data,
            specifiers := none } := by
  have h := empty_divider_rejects_derived_builds "p".data "s".data
    "svc".data "usr".data (.ok 0) (.ok 1)
  exact ⟨h.2.2.1, h.2.2.2 "tgt".data 0 (by decide)⟩

/-- C3 counterexample: with prefix `""`, divider `"aa"`, suffix `""` and
`service_no_divider = true`, the two distinct accepted pairs
(service `"a"`, user `"x"`) and (service `""`, user `"xa"`) both build
successfully and derive the same description `"xaaa"` — the description map is
not injective for every choice of divider. -/
theorem build_collision_self_overlapping_divider :
    Cred.buildFromSpecifiers none delimsAA true "a".data "x".data (.ok 0)
        (.error .OperationNotSupported) =
      .ok { session := 0, persistent := none, description := "xaaa".data,
            specifiers := some ("x".data, "a".data) } ∧
    Cred.buildFromSpecifiers none delimsAA true "".data "xa".data (.ok 0)
        (.error .OperationNotSupported) =
      .ok { session := 0, persistent := none, description := "xaaa".data,
            specifiers := some ("xa".data, "".data) } ∧
    ("a".data, "x".data) ≠ ("".data, "xa".data) := by
  decide

/-- A character occurring in a string makes the singleton substring test
succeed. -/
theorem hasSub_single_of_mem (s : Str) (c : Char) (h : c ∈ s) :
    hasSub s [c] = true := by
  induction s with
  | nil => cases h
  | cons b bs ih =>
    rcases List.mem_cons.mp h with hc | hc
    · subst hc
      simp [hasSub, leadsWith]
    · simp [hasSub, ih hc]

/-- A failed singleton substring test means the character does not occur. -/
theorem not_mem_of_hasSub_single (s : Str) (c : Char)
    (h : hasSub s [c] = false) : c ∉ s := by
  intro hc
  rw [hasSub_single_of_mem s c hc] at h
  simp at h

/-- Splitting at a marker character from the left: when the marker occurs in
neither left part, the decomposition around its first occurrence is unique. -/
theorem append_marker_inj (c : Char) :
    ∀ (a b x y : Str), c ∉ a → c ∉ b → a ++ c :: x = b ++ c :: y →
      a = b ∧ x = y := by
  intro a
  induction a with
  | nil =>
    intro b x y _ hb h
    cases b with
    | nil =>
      simp at h
      exact ⟨rfl, h⟩
    | cons b0 bs =>
      simp at h
      exact absurd (show c ∈ b0 :: bs by
        rw [h.1]; exact List.mem_cons_self b0 bs) hb
  | cons a0 as ih =>
    intro b x y ha hb h
    cases b with
    | nil =>
      simp at h
      exact absurd (show c ∈ a0 :: as by
        rw [← h.1]; exact List.mem_cons_self a0 as) ha
    | cons b0 bs =>
      simp at h
      have ha' : c ∉ as := fun hm => ha (List.mem_cons_of_mem a0 hm)
      have hb' : c ∉ bs := fun hm => hb (List.mem_cons_of_mem b0 hm)
      obtain ⟨h1, h2⟩ := ih bs x y ha' hb' h.2
      exact ⟨by rw [h.1, h1], h2⟩

/-- Splitting at a marker character from the right: when the marker occurs in
neither right part, the decomposition around its last occurrence is unique. -/
theorem marker_split_right (c : Char) (u1 s1 u2 s2 : Str)
    (h1 : c ∉ s1) (h2 : c ∉ s2) (h : u1 ++ c :: s1 = u2 ++ c :: s2) :
    u1 = u2 ∧ s1 = s2 := by
  have hrev : s1.reverse ++ c :: u1.reverse = s2.reverse ++ c :: u2.reverse := by
    have hc := congrArg List.reverse h
    simpa [List.reverse_append, List.append_assoc] using hc
  have h1' : c ∉ s1.reverse := by simpa using h1
  have h2' : c ∉ s2.reverse := by simpa using h2
  obtain ⟨hs, hu⟩ :=
    append_marker_inj c s1.reverse s2.reverse u1.reverse u2.reverse h1' h2' hrev
  exact ⟨List.reverse_injective hu, List.reverse_injective hs⟩

/-- A successful build without an explicit target under
`service_no_divider = true` certifies that the divider does not occur in the
service and determines the derived description. -/
theorem build_none_ok (delims : Delimiters) (service user : Str)
    (sessionRes persistentRes : Except KeyUtilsError KeyRing) (c : Cred)
    (h : Cred.buildFromSpecifiers none delims true service user sessionRes
        persistentRes = .ok c) :
    hasSub service delims.mid = false ∧
    c.description =
      delims.pre ++ user ++ delims.mid ++ service ++ delims.suf := by
  by_cases hsub : hasSub service delims.mid = true
  · simp [Cred.buildFromSpecifiers, Cred.descriptionOf, hsub] at h
  · rw [Bool.not_eq_true] at hsub
    refine ⟨hsub, ?_⟩
    simp [Cred.buildFromSpecifiers, Cred.descriptionOf, hsub] at h
    split at h
    · simp at h
    · cases sessionRes with
      | error e => simp at h
      | ok r =>
        simp at h
        rw [← h]
        simp [List.append_assoc]

/-- C3 amended: when the divider is a single character (as in the default
configuration) and `service_no_divider = true`, any two successful builds
without an explicit target that derive the same description came from the same
(user, service) pair — the description map is injective on accepted pairs for
every prefix and suffix. -/
theorem build_injective_single_char_divider (pre suf : Str) (ch : Char)
    (s1 u1 s2 u2 : Str)
    (sess1 pers1 sess2 pers2 : Except KeyUtilsError KeyRing) (c1 c2 : Cred)
    (hb1 : Cred.buildFromSpecifiers none ⟨pre, [ch], suf⟩ true s1 u1 sess1
        pers1 = .ok c1)
    (hb2 : Cred.buildFromSpecifiers none ⟨pre, [ch], suf⟩ true s2 u2 sess2
        pers2 = .ok c2)
    (hd : c1.description = c2.description) :
    u1 = u2 ∧ s1 = s2 := by
  obtain ⟨hs1, hd1⟩ := build_none_ok _ s1 u1 sess1 pers1 c1 hb1
  obtain ⟨hs2, hd2⟩ := build_none_ok _ s2 u2 sess2 pers2 c2 hb2
  rw [hd1, hd2] at hd
  have hm1 : ch ∉ s1 := not_mem_of_hasSub_single s1 ch hs1
  have hm2 : ch ∉ s2 := not_mem_of_hasSub_single s2 ch hs2
  have hnosuf := List.append_cancel_right hd
  rw [List.append_assoc, List.append_assoc, List.append_assoc,
    List.append_assoc] at hnosuf
  have hmid := List.append_cancel_left hnosuf
  simp only [List.singleton_append] at hmid
  exact marker_split_right ch u1 s1 u2 s2 hm1 hm2 hmid

/-- Witness for the amended C3: the two builds of the same pair (service
`"a"`, user `"x"`) under the default single-character divider derive equal
descriptions, and injectivity concludes the pairs coincide. -/
theorem build_injective_single_char_divider_witness :
    "x".data = "x".data ∧ "a".data = "a".data :=
  build_injective_single_char_divider "keyring:".data [] '@' "a".data
    "x".data "a".data "x".data (.ok 0) (.ok 1) (.ok 0) (.ok 1)
    { session := 0, persistent := some 1,
      description := "keyring:x@a".data,
      specifiers := some ("x".data, "a".data) }
    { session := 0, persistent := some 1,
      description := "keyring:x@a".data,
      specifiers := some ("x".data, "a".data) }
    (by decide) (by decide) rfl
